import Mathlib

/-!
Verification of the data-access layer of the fundraising-intelligence backend:
a shallow embedding of `app/repositories/base_repository.py` (generic caching
CRUD repository over a remote spreadsheet), specialised to
`app/repositories/contribution_repository.py` (the `Contributions` table), and
of the retry/backoff loop of `app/services/sheets_client.py`.

Modelling conventions:
* Time is a `Nat` (`datetime.utcnow()` becomes an explicit `now` parameter;
  a timestamp is identified with its tick count, and the bijective
  `datetime.isoformat` / `datetime.fromisoformat` pair is represented by the
  dedicated cell constructor `Cell.dt`).
* A spreadsheet cell is the inductive `Cell`: `Cell.s` is a text cell,
  `Cell.num` a numeric cell (what a RAW write of a Python float stores; the
  `Decimal(str(float(d)))` round trip is identity for in-range two-decimal
  currency amounts, which we model exactly), `Cell.dt` a cell holding the ISO
  rendering of a timestamp, and `Cell.js` a cell holding the `json.dumps` of a
  string-to-string object (`json.dumps` is injective, so the object itself is
  stored; a text cell in the metadata column stands for content that is not
  valid JSON).
* `Decimal` amounts are `Rat`; `round(d, 2)` is round-half-even to two places.
* Exceptions become `Option`/`Except`: a row whose Pydantic construction
  raises is `none`, a raised `ValueError` in `update` is `Except.error`.
* The remote store is the list of sheet rows held in `RepoState.sheet`;
  every remote call the repository issues is logged in a `List RemoteOp` so
  that read/write counts can be stated.
-/

/-- `ContributionStatus` enum from `app/models/entities.py`. -/
inductive ContributionStatus where
  | pending
  | confirmed
  | received
  | cancelled
deriving DecidableEq, Repr

/-- The `.value` string of a `ContributionStatus` member. -/
def statusValue : ContributionStatus → String
  | .pending => "pending"
  | .confirmed => "confirmed"
  | .received => "received"
  | .cancelled => "cancelled"

/-- `ContributionStatus(s)`: `some` member on a valid value string, `none`
models the raised `ValueError`. -/
def statusOfString (s : String) : Option ContributionStatus :=
  if s = "pending" then some .pending
  else if s = "confirmed" then some .confirmed
  else if s = "received" then some .received
  else if s = "cancelled" then some .cancelled
  else none

/-- A spreadsheet cell (see the modelling conventions above). -/
inductive Cell where
  | s (v : String)
  | num (v : Rat)
  | dt (t : Nat)
  | js (m : List (String × String))
deriving DecidableEq, Repr

/-- Python truthiness of the value held in a cell: the empty string and the
number zero are falsy; a datetime rendering and a `json.dumps` output are
non-empty strings, hence truthy. -/
def Cell.truthy : Cell → Bool
  | .s v => v ≠ ""
  | .num q => q ≠ 0
  | .dt _ => true
  | .js _ => true

/-- The empty-string cell used for padding short rows. -/
def emptyCell : Cell := Cell.s ""

/-- `int` value of a digit list (the digits are assumed checked). -/
def digitsToNat (l : List Char) : Nat :=
  l.foldl (fun a c => a * 10 + (c.toNat - 48)) 0

/-- Unsigned part of `Decimal(string)`: digits with an optional single point,
at least one digit overall; anything else raises, i.e. `none`. -/
def parseUnsigned (l : List Char) : Option Rat :=
  let ip := (l.span Char.isDigit).1
  let rest := (l.span Char.isDigit).2
  match rest with
  | [] => if ip.isEmpty then none else some (digitsToNat ip : Rat)
  | c :: fp =>
    if c = '.' ∧ fp.all Char.isDigit ∧ ¬(ip.isEmpty ∧ fp.isEmpty) then
      some ((digitsToNat ip : Rat) + (digitsToNat fp : Rat) / (10 ^ fp.length))
    else
      none

/-- `Decimal(string)` on the sign-and-digits core grammar (exponent forms and
surrounding whitespace are not exercised by this development). -/
def parseDecimal (s : String) : Option Rat :=
  match s.data with
  | [] => none
  | c :: rest =>
    if c = '-' then (parseUnsigned rest).map (fun q => -q)
    else if c = '+' then parseUnsigned rest
    else parseUnsigned (c :: rest)

/-- Round-half-even of a rational to an integer (the rounding of Python
`Decimal` under the default context). -/
def roundHalfEven (x : Rat) : Int :=
  let f := ⌊x⌋
  let frac := x - (f : Rat)
  if frac < 1/2 then f
  else if 1/2 < frac then f + 1
  else if f % 2 = 0 then f else f + 1

/-- `round(d, 2)` on a `Decimal`: round-half-even to two decimal places. -/
def round2 (q : Rat) : Rat :=
  (roundHalfEven (q * 100) : Rat) / 100

/-- Python whitespace characters as stripped by `str.strip()` (the ASCII
ones that occur in cell data). -/
def isWsChar (c : Char) : Bool :=
  c = ' ' || c = '\t' || c = '\n' || c = '\r'

/-- `str.strip()`: drop whitespace from both ends. -/
def pyStrip (s : String) : String :=
  ⟨((s.data.dropWhile isWsChar).reverse.dropWhile isWsChar).reverse⟩

/-- `str.upper()` on ASCII text. -/
def pyUpper (s : String) : String :=
  ⟨s.data.map Char.toUpper⟩

/-- `str.split(sep)` for a one-character separator. -/
def splitOnChar (sep : Char) : List Char → List (List Char)
  | [] => [[]]
  | c :: rest =>
    match splitOnChar sep rest with
    | [] => [[]]
    | h :: t => if c = sep then [] :: h :: t else (c :: h) :: t

/-- The `fiscal_year` check of `ContributionModel`: the Field pattern
`\d{4}-\d{2}` together with the `validate_fiscal_year` validator (split on
the dash, the end year `20YY` must be start year + 1, start year within
2000..2100). -/
def fyCheck (s : String) : Bool :=
  match splitOnChar '-' s.data with
  | [a, b] =>
    a.length = 4 && b.length = 2 && a.all Char.isDigit && b.all Char.isDigit &&
      (let sy := digitsToNat a
       let ey := 2000 + digitsToNat b
       ey = sy + 1 && 2000 ≤ sy && sy ≤ 2100)
  | _ => false

/-- `ContributionModel` from `app/models/entities.py`, with validated-state
fields (`amount` is a `Decimal` as `Rat`, `date`/timestamps are ticks,
`metadata` a string-to-string JSON object). -/
structure ContributionModel where
  id : String
  funder_id : String
  state_code : String
  fiscal_year : String
  amount : Rat
  date : Option Nat
  status : ContributionStatus
  description : Option String
  metadata : List (String × String)
  created_at : Nat
  updated_at : Nat
deriving DecidableEq, Repr

/-- The raw keyword arguments of a `ContributionModel(...)` construction,
before validation. -/
structure RawContribution where
  id : String
  funder_id : String
  state_code : String
  fiscal_year : String
  amount : Rat
  date : Option Nat
  status : ContributionStatus
  description : Option String
  metadata : List (String × String)
  created_at : Nat
  updated_at : Nat
deriving DecidableEq, Repr

/-- `ContributionModel(**raw)`: Pydantic construction. The `update_timestamp`
model validator overwrites `updated_at` with the current time on every
construction; field constraints are `state_code` raw length in 2..3 (then
normalised by `upper().strip()`), the fiscal-year pattern + validator,
`amount > 0` (then rounded to two places), `description` at most 500
characters. `none` models a raised `ValidationError`. -/
def mkContribution (r : RawContribution) (now : Nat) : Option ContributionModel :=
  if (2 ≤ r.state_code.length && r.state_code.length ≤ 3 && fyCheck r.fiscal_year &&
      decide (0 < r.amount) && (match r.description with
                                | none => true
                                | some d => d.length ≤ 500)) then
    some { id := r.id
           funder_id := r.funder_id
           state_code := pyStrip (pyUpper r.state_code)
           fiscal_year := r.fiscal_year
           amount := round2 r.amount
           date := r.date
           status := r.status
           description := r.description
           metadata := r.metadata
           created_at := r.created_at
           updated_at := now }
  else
    none

/-- `ContributionRepository._get_headers()`: the fixed column order. -/
def contributionHeaders : List String :=
  ["id", "funder_id", "state_code", "fiscal_year", "amount", "date",
   "status", "description", "metadata", "created_at", "updated_at"]

/-- `ContributionRepository._model_to_row`. -/
def model_to_row (m : ContributionModel) : List Cell :=
  [Cell.s m.id,
   Cell.s m.funder_id,
   Cell.s m.state_code,
   Cell.s m.fiscal_year,
   Cell.num m.amount,
   (match m.date with
    | some t => Cell.dt t
    | none => Cell.s ""),
   Cell.s (statusValue m.status),
   Cell.s (m.description.getD ""),
   Cell.js m.metadata,
   Cell.dt m.created_at,
   Cell.dt m.updated_at]

/-- Pad a row with empty-string cells up to the header count (both
`get_all` and `_row_to_model` pad this way). -/
def padRow (row : List Cell) : List Cell :=
  row ++ List.replicate (contributionHeaders.length - row.length) emptyCell

/-- `row[0] or ""` read into a `str` Pydantic field: a text cell passes
through, a falsy non-text cell becomes `""` via the `or`, a truthy non-text
cell makes the model construction raise (`none`). -/
def strField (c : Cell) : Option String :=
  match c with
  | .s v => some v
  | .num q => if q = 0 then some "" else none
  | .dt _ => none
  | .js _ => none

/-- `row[7] if row[7] else None` read into an `Optional[str]` field: falsy
becomes `None`, a truthy text cell passes through, a truthy non-text cell
makes the construction raise. -/
def descField (c : Cell) : Option (Option String) :=
  if c.truthy then
    match c with
    | .s v => some (some v)
    | _ => none
  else
    some none

/-- `Decimal(str(row[4])) if row[4] else Decimal('0')`, any parse failure
defaulted to `Decimal('0')`. -/
def parseAmountCell (c : Cell) : Rat :=
  if c.truthy then
    match c with
    | .num q => q
    | .s v => (parseDecimal v).getD 0
    | _ => 0
  else 0

/-- `datetime.fromisoformat(row[5]) if row[5] else None`, failure defaulted
to `None`. -/
def parseDateCell (c : Cell) : Option Nat :=
  if c.truthy then
    match c with
    | .dt t => some t
    | _ => none
  else none

/-- `ContributionStatus(row[6]) if row[6] else PENDING`, failure defaulted
to `PENDING`. -/
def parseStatusCell (c : Cell) : ContributionStatus :=
  if c.truthy then
    match c with
    | .s v => (statusOfString v).getD .pending
    | _ => .pending
  else .pending

/-- `json.loads(row[8]) if row[8] else {}`, failure defaulted to the empty
object (a text cell in this column stands for invalid JSON). -/
def parseMetadataCell (c : Cell) : List (String × String) :=
  if c.truthy then
    match c with
    | .js m => m
    | _ => []
  else []

/-- `datetime.fromisoformat(cell) if cell else utcnow()`, failure defaulted
to `utcnow()` (used for `created_at` and `updated_at`). -/
def parseTimestampCell (c : Cell) (now : Nat) : Nat :=
  if c.truthy then
    match c with
    | .dt t => t
    | _ => now
  else now

/-- `ContributionRepository._row_to_model`: pads, parses each field with its
per-field defaulting, then constructs the model; `none` models the exception
that `get_all`'s per-row `try/except` catches. -/
def row_to_model (row : List Cell) (now : Nat) : Option ContributionModel :=
  let r := padRow row
  do
    let id ← strField (r.getD 0 emptyCell)
    let fid ← strField (r.getD 1 emptyCell)
    let st ← strField (r.getD 2 emptyCell)
    let fy ← strField (r.getD 3 emptyCell)
    let desc ← descField (r.getD 7 emptyCell)
    mkContribution
      { id := id
        funder_id := fid
        state_code := st
        fiscal_year := fy
        amount := parseAmountCell (r.getD 4 emptyCell)
        date := parseDateCell (r.getD 5 emptyCell)
        status := parseStatusCell (r.getD 6 emptyCell)
        description := desc
        metadata := parseMetadataCell (r.getD 8 emptyCell)
        created_at := parseTimestampCell (r.getD 9 emptyCell) now
        updated_at := parseTimestampCell (r.getD 10 emptyCell) now }
      now

/-! ## Repository state machine (`BaseRepository`, `Contributions` table) -/

/-- A remote Sheets call issued by the repository, as logged for the
read-count and write-count properties. Row numbers are the 1-based sheet row
of the `A{n}:Z{n}` range. -/
inductive RemoteOp where
  | readRange
  | appendRows (values : List (List Cell))
  | writeRange (rowNumber : Nat) (values : List Cell)
  | clearRange (rowNumber : Nat)
deriving DecidableEq, Repr

/-- Is the op one of the write-side calls (`write_range` / `append_rows` /
`clear_range`)? -/
def RemoteOp.isWrite : RemoteOp → Bool
  | .readRange => false
  | _ => true

/-- `CacheEntry`: a value with an absolute expiry instant
(`utcnow() + ttl`). -/
structure CacheEntry (α : Type) where
  data : α
  expires_at : Nat
deriving DecidableEq, Repr

/-- `CacheEntry.is_expired`: strictly past the expiry instant. -/
def CacheEntry.isExpired (e : CacheEntry α) (now : Nat) : Bool :=
  e.expires_at < now

/-- The default per-repository cache TTL (seconds). -/
def cacheTTL : Nat := 300

/-- In-memory state of one `ContributionRepository` instance together with
the backing sheet: `sheet` is the full cell grid the remote store holds
(row 1 is the header), `cache` the per-id entry map, `listCache` the
distinguished all-entities entry. -/
structure RepoState where
  sheet : List (List Cell)
  cache : List (String × CacheEntry ContributionModel)
  listCache : Option (CacheEntry (List ContributionModel))
deriving DecidableEq, Repr

/-- A repository state with the given sheet and cold caches. -/
def freshState (sheet : List (List Cell)) : RepoState :=
  { sheet := sheet, cache := [], listCache := none }

/-- `_get_cache_key`: `"{sheet_name}:{entity_id}"` with sheet name
`Contributions`. -/
def cacheKey (entityId : String) : String :=
  "Contributions:" ++ entityId

/-- `_get_from_cache`: a non-expired entry is returned; an expired entry is
evicted on read. -/
def getFromCache (key : String) (now : Nat) (s : RepoState) :
    Option ContributionModel × RepoState :=
  match s.cache.find? (fun p => p.1 = key) with
  | some p =>
    if p.2.isExpired now then
      (none, { s with cache := s.cache.eraseP (fun q => q.1 = key) })
    else
      (some p.2.data, s)
  | none => (none, s)

/-- `_set_cache`: store or replace the per-id entry with a fresh TTL. -/
def setCache (key : String) (e : ContributionModel) (now : Nat) (s : RepoState) :
    RepoState :=
  { s with cache := (key, ⟨e, now + cacheTTL⟩) :: s.cache.eraseP (fun q => q.1 = key) }

/-- `_invalidate_cache(entity_id)`: drop the per-id entry and always drop the
list entry. -/
def invalidateOne (s : RepoState) (entityId : String) : RepoState :=
  { s with cache := s.cache.eraseP (fun q => q.1 = cacheKey entityId)
           listCache := none }

/-- `_invalidate_cache()` without an id: clear the whole per-id map and the
list entry. -/
def invalidateAll (s : RepoState) : RepoState :=
  { s with cache := [], listCache := none }

/-- The entity list decoded from the sheet: skip the header row, pad each
data row, drop rows whose decoding raises (the per-row `try/except` of
`get_all`). -/
def parseSheet (sheet : List (List Cell)) (now : Nat) : List ContributionModel :=
  (sheet.drop 1).filterMap (fun r => row_to_model (padRow r) now)

/-- `BaseRepository.get_all`: list-cache check with lazy eviction, then a
full-range `read_range`, per-row decoding, re-cache. -/
def get_all (now : Nat) (s : RepoState) :
    List ContributionModel × RepoState × List RemoteOp :=
  match s.listCache with
  | some e =>
    if e.isExpired now then
      let ents := parseSheet s.sheet now
      (ents, { s with listCache := some ⟨ents, now + cacheTTL⟩ }, [RemoteOp.readRange])
    else
      (e.data, s, [])
  | none =>
    let ents := parseSheet s.sheet now
    (ents, { s with listCache := some ⟨ents, now + cacheTTL⟩ }, [RemoteOp.readRange])

/-- `BaseRepository.get_by_id`: per-id cache, else scan `get_all()` for the
first matching id and cache the hit. -/
def get_by_id (entityId : String) (now : Nat) (s : RepoState) :
    Option ContributionModel × RepoState × List RemoteOp :=
  let key := cacheKey entityId
  match getFromCache key now s with
  | (some e, s1) => (some e, s1, [])
  | (none, s1) =>
    let (ents, s2, ops) := get_all now s1
    match ents.find? (fun c => c.id = entityId) with
    | some e => (some e, setCache key e now s2, ops)
    | none => (none, s2, ops)

/-- `BaseRepository.create` on an entity that is already a model instance
(the `isinstance` branch skips re-validation): serialize, `append_rows`,
invalidate every cache entry. -/
def create (e : ContributionModel) (s : RepoState) :
    ContributionModel × RepoState × List RemoteOp :=
  let row := model_to_row e
  (e, invalidateAll { s with sheet := s.sheet ++ [row] },
   [RemoteOp.appendRows [row]])

/-- `BaseRepository.create` on a non-instance payload: the model constructor
re-validates before any remote call; a `ValidationError` propagates with
nothing appended. -/
def create_from_fields (r : RawContribution) (now : Nat) (s : RepoState) :
    Except Unit ContributionModel × RepoState × List RemoteOp :=
  match mkContribution r now with
  | none => (Except.error (), s, [])
  | some e =>
    let (e1, s1, ops) := create e s
    (Except.ok e1, s1, ops)

/-- Partial update payload: `update`'s `updates` dict (absent key = field
untouched). -/
structure Updates where
  id : Option String := none
  funder_id : Option String := none
  state_code : Option String := none
  fiscal_year : Option String := none
  amount : Option Rat := none
  date : Option (Option Nat) := none
  status : Option ContributionStatus := none
  description : Option (Option String) := none
  metadata : Option (List (String × String)) := none
  created_at : Option Nat := none
deriving Repr

/-- `entity_dict = current.model_dump(); entity_dict.update(updates)`:
the merged keyword arguments handed back to the model constructor
(`updated_at` is overwritten by the constructor regardless). -/
def applyUpdates (c : ContributionModel) (u : Updates) : RawContribution :=
  { id := u.id.getD c.id
    funder_id := u.funder_id.getD c.funder_id
    state_code := u.state_code.getD c.state_code
    fiscal_year := u.fiscal_year.getD c.fiscal_year
    amount := u.amount.getD c.amount
    date := u.date.getD c.date
    status := u.status.getD c.status
    description := u.description.getD c.description
    metadata := u.metadata.getD c.metadata
    created_at := u.created_at.getD c.created_at
    updated_at := c.updated_at }

/-- Overwrite the sheet row with 1-based number `rowNumber` (header is
row 1), leaving every other row in place. -/
def setSheetRow (sheet : List (List Cell)) (rowNumber : Nat) (row : List Cell) :
    List (List Cell) :=
  sheet.set (rowNumber - 1) row

/-- `BaseRepository.update`: load via `get_by_id` (absent ⇒ `none`), merge
and re-validate (failure ⇒ raised `ValidationError`, `Except.error`), re-scan
`get_all()` for the positional index, `write_range` row `i + 2`, invalidate
the per-id and list entries. -/
def update (entityId : String) (u : Updates) (now : Nat) (s : RepoState) :
    Except Unit (Option ContributionModel) × RepoState × List RemoteOp :=
  let (cur, s1, ops1) := get_by_id entityId now s
  match cur with
  | none => (Except.ok none, s1, ops1)
  | some current =>
    match mkContribution (applyUpdates current u) now with
    | none => (Except.error (), s1, ops1)
    | some updated =>
      let (ents, s2, ops2) := get_all now s1
      match ents.findIdx? (fun c => c.id = entityId) with
      | some i =>
        let rowNumber := i + 2
        let row := model_to_row updated
        let s3 := { s2 with sheet := setSheetRow s2.sheet rowNumber row }
        (Except.ok (some updated), invalidateOne s3 entityId,
         ops1 ++ ops2 ++ [RemoteOp.writeRange rowNumber row])
      | none => (Except.ok none, s2, ops1 ++ ops2)

/-- `BaseRepository.delete`: scan `get_all()` for the positional index,
`clear_range` row `i + 2` (blanking in place, no shifting), invalidate the
per-id and list entries; `false` when no entity matches. -/
def delete (entityId : String) (now : Nat) (s : RepoState) :
    Bool × RepoState × List RemoteOp :=
  let (ents, s1, ops1) := get_all now s
  match ents.findIdx? (fun c => c.id = entityId) with
  | some i =>
    let rowNumber := i + 2
    let s2 := { s1 with sheet := setSheetRow s1.sheet rowNumber [] }
    (true, invalidateOne s2 entityId, ops1 ++ [RemoteOp.clearRange rowNumber])
  | none => (false, s1, ops1)

/-- A field value as compared by `find_by_field`'s `getattr(entity, name)`
equality check. -/
inductive FieldVal where
  | str (v : String)
  | rat (v : Rat)
  | odt (v : Option Nat)
  | st (v : ContributionStatus)
  | ostr (v : Option String)
  | meta (v : List (String × String))
  | nat (v : Nat)
deriving DecidableEq, Repr

/-- `getattr(entity, field_name)` on the model's declared fields (`none`
models `hasattr` being false). -/
def getattrField (c : ContributionModel) (name : String) : Option FieldVal :=
  if name = "id" then some (.str c.id)
  else if name = "funder_id" then some (.str c.funder_id)
  else if name = "state_code" then some (.str c.state_code)
  else if name = "fiscal_year" then some (.str c.fiscal_year)
  else if name = "amount" then some (.rat c.amount)
  else if name = "date" then some (.odt c.date)
  else if name = "status" then some (.st c.status)
  else if name = "description" then some (.ostr c.description)
  else if name = "metadata" then some (.meta c.metadata)
  else if name = "created_at" then some (.nat c.created_at)
  else if name = "updated_at" then some (.nat c.updated_at)
  else none

/-- `BaseRepository.find_by_field`: linear scan of `get_all()` for exact
attribute equality. -/
def find_by_field (name : String) (v : FieldVal) (now : Nat) (s : RepoState) :
    List ContributionModel × RepoState × List RemoteOp :=
  let (ents, s1, ops) := get_all now s
  (ents.filter (fun e => getattrField e name = some v), s1, ops)

/-- `ContributionRepository.find_by_state`: `find_by_field` on the
upper-cased state code. -/
def find_by_state (stateCode : String) (now : Nat) (s : RepoState) :
    List ContributionModel × RepoState × List RemoteOp :=
  find_by_field "state_code" (.str (pyUpper stateCode)) now s

/-- `ContributionRepository.find_by_state_and_year`: linear scan of
`get_all()` for the (state, fiscal year) pair. -/
def find_by_state_and_year (stateCode fiscalYear : String) (now : Nat) (s : RepoState) :
    List ContributionModel × RepoState × List RemoteOp :=
  let (ents, s1, ops) := get_all now s
  (ents.filter (fun e => e.state_code = pyUpper stateCode ∧ e.fiscal_year = fiscalYear),
   s1, ops)

/-- The status filter of the aggregation methods: only `CONFIRMED` and
`RECEIVED` contributions count toward totals. -/
def countsTowardTotal (c : ContributionModel) : Bool :=
  c.status = ContributionStatus.confirmed ∨ c.status = ContributionStatus.received

/-- `ContributionRepository.get_total_by_state`: filter by state (and
optionally fiscal year), then sum the amounts of the confirmed/received
contributions. -/
def get_total_by_state (stateCode : String) (fiscalYear : Option String)
    (now : Nat) (s : RepoState) : Rat × RepoState × List RemoteOp :=
  let (contribs, s1, ops) :=
    match fiscalYear with
    | some fy => find_by_state_and_year stateCode fy now s
    | none => find_by_state stateCode now s
  ((contribs.filter countsTowardTotal).foldl (fun acc c => acc + c.amount) 0,
   s1, ops)

/-! ## Retry / backoff (`SheetsClient._execute_with_retry`) -/

/-- `RetryConfig` from `app/services/sheets_client.py` with its default
values. -/
structure RetryConfig where
  max_retries : Nat := 3
  base_delay : Rat := 1
  max_delay : Rat := 60
  exponential_base : Rat := 2
  jitter : Bool := true
deriving Repr

/-- The defaults (`max_retries=3, base_delay=1s, max_delay=60s,
exponential_base=2.0, jitter=on`). -/
def defaultRetryConfig : RetryConfig := {}

/-- What one invocation of the wrapped operation does: succeed, raise an
`HttpError` with a status code (`quota` says whether the 403 message contains
quota/rate wording), or raise a non-HTTP exception. -/
inductive AttemptOutcome (α : Type) where
  | ok (a : α)
  | http (code : Nat) (quota : Bool)
  | exc
deriving Repr

/-- The error taxonomy the client raises: `SheetsAuthError`,
`SheetsRateLimitError`, `SheetsConnectionError`, or the base `SheetsError`
(permission denied and other HTTP codes). -/
inductive SheetsErrKind where
  | auth
  | rateLimit
  | conn
  | sheets
deriving DecidableEq, Repr

/-- The observable outcome of `_execute_with_retry`: the result, how many
times the operation function ran, the backoff delays slept between
consecutive attempts (in order), and whether the stored credentials were
invalidated (`self.credentials = None` in the 401 branch). -/
structure RetryResult (α : Type) where
  result : Except SheetsErrKind α
  calls : Nat
  delays : List Rat
  credentialsInvalidated : Bool
deriving Repr

/-- `SheetsClient._calculate_delay`:
`min(base_delay * exponential_base^attempt, max_delay)`, multiplied by the
jitter factor `0.5 + random.random() * 0.5` when jitter is enabled (`jit` is
that sampled factor, a value in [0.5, 1)). -/
def calculateDelay (cfg : RetryConfig) (jit : Rat) (attempt : Nat) : Rat :=
  (min (cfg.base_delay * cfg.exponential_base ^ attempt) cfg.max_delay) *
    (if cfg.jitter then jit else 1)

/-- The body of `for attempt in range(max_retries + 1)`, by fuel: classify
the attempt's outcome, retry with backoff where the code does, otherwise
raise. `delays` accumulates slept delays in reverse. Reaching fuel 0 is the
post-loop `raise SheetsConnectionError` at the end of the function. -/
def retryGo (cfg : RetryConfig) (op : Nat → AttemptOutcome α) (jit : Nat → Rat) :
    Nat → Nat → List Rat → RetryResult α
  | 0, attempt, delays =>
    ⟨Except.error .conn, attempt, delays.reverse, false⟩
  | fuel + 1, attempt, delays =>
    match op attempt with
    | .ok a => ⟨Except.ok a, attempt + 1, delays.reverse, false⟩
    | .http code quota =>
      if code = 401 then
        ⟨Except.error .auth, attempt + 1, delays.reverse, true⟩
      else if code = 403 then
        if quota then
          if attempt < cfg.max_retries then
            retryGo cfg op jit fuel (attempt + 1)
              (calculateDelay cfg (jit attempt) attempt :: delays)
          else
            ⟨Except.error .rateLimit, attempt + 1, delays.reverse, false⟩
        else
          ⟨Except.error .sheets, attempt + 1, delays.reverse, false⟩
      else if 500 ≤ code then
        if attempt < cfg.max_retries then
          retryGo cfg op jit fuel (attempt + 1)
            (calculateDelay cfg (jit attempt) attempt :: delays)
        else
          ⟨Except.error .conn, attempt + 1, delays.reverse, false⟩
      else
        ⟨Except.error .sheets, attempt + 1, delays.reverse, false⟩
    | .exc =>
      if attempt < cfg.max_retries then
        retryGo cfg op jit fuel (attempt + 1)
          (calculateDelay cfg (jit attempt) attempt :: delays)
      else
        ⟨Except.error .conn, attempt + 1, delays.reverse, false⟩

/-- `SheetsClient._execute_with_retry`: run the loop over attempts
`0 .. max_retries`. -/
def executeWithRetry (cfg : RetryConfig) (op : Nat → AttemptOutcome α)
    (jit : Nat → Rat) : RetryResult α :=
  retryGo cfg op jit (cfg.max_retries + 1) 0 []

/-! ## Statement helpers and concrete fixtures -/

/-- The fields of a Pydantic-constructed `ContributionModel` are already in
validated, normalised form; this records exactly the facts re-validation
relies on, plus canonicity of the two fields whose cell encoding is not
injective on all values (`state_code` free of surrounding whitespace via
`toUpper.trim` fixedness, `description` never the empty string, which the
`or`/falsy decoding maps to absent). -/
def validNormalized (e : ContributionModel) : Bool :=
  2 ≤ e.state_code.length && e.state_code.length ≤ 3 &&
  pyStrip (pyUpper e.state_code) = e.state_code &&
  fyCheck e.fiscal_year &&
  decide (0 < e.amount) && decide (round2 e.amount = e.amount) &&
  (match e.description with
   | none => true
   | some d => decide (d ≠ "") && d.length ≤ 500)

/-- Did `update` return an updated entity (as opposed to absent or a raised
validation error)? -/
def isOkSome (x : Except Unit (Option ContributionModel)) : Bool :=
  match x with
  | .ok (some _) => true
  | _ => false

/-- Cache keys are pairwise distinct (an invariant of every state the
repository itself produces, since `_set_cache` replaces the old entry). -/
def CacheKeysUnique (s : RepoState) : Prop :=
  s.cache.Pairwise (fun a b => a.1 ≠ b.1)

/-- A display header row for fixtures (its content is never inspected). -/
def headerRow : List Cell := contributionHeaders.map Cell.s

/-- A well-formed CA contribution for fixtures. -/
def demoContribution (i : String) (amt : Rat) (st : ContributionStatus) :
    ContributionModel :=
  { id := i
    funder_id := "f1"
    state_code := "CA"
    fiscal_year := "2024-25"
    amount := amt
    date := none
    status := st
    description := none
    metadata := []
    created_at := 1
    updated_at := 1 }

/-- The aggregation fixture of the spec: CA contributions with statuses
confirmed $50k, received $30k, pending $20k. -/
def demoSheet : List (List Cell) :=
  [headerRow,
   model_to_row (demoContribution "a" 50000 .confirmed),
   model_to_row (demoContribution "b" 30000 .received),
   model_to_row (demoContribution "c" 20000 .pending)]

/-- An otherwise well-formed entity whose `description` is the empty string
(constructible, since Pydantic only bounds the length). -/
def emptyDescEntity : ContributionModel :=
  { demoContribution "d1" 100 .confirmed with description := some "" }

/-- A short but decodable row (wrong cell count: only 5 of 11 cells). -/
def shortRow : List Cell :=
  [Cell.s "s1", Cell.s "f1", Cell.s "CA", Cell.s "2024-25", Cell.num 100]

/-- A full row whose amount cell is non-numeric text. -/
def badAmountRow : List Cell :=
  [Cell.s "s2", Cell.s "f1", Cell.s "CA", Cell.s "2024-25",
   Cell.s "not a number", Cell.s "", Cell.s "", Cell.s "", Cell.s "",
   Cell.s "", Cell.s ""]

/-- A full row whose metadata cell holds text that is not valid JSON. -/
def badJsonRow : List Cell :=
  [Cell.s "s3", Cell.s "f1", Cell.s "CA", Cell.s "2024-25", Cell.num 250,
   Cell.s "", Cell.s "confirmed", Cell.s "note", Cell.s "this is not json",
   Cell.dt 3, Cell.dt 4]

/-- The malformed-rows fixture: one good row, then the three malformed
shapes of the claim. -/
def malformedSheet : List (List Cell) :=
  [headerRow, model_to_row (demoContribution "g1" 500 .confirmed),
   shortRow, badAmountRow, badJsonRow]

/-- A data row no decoding accepts (its fiscal-year cell fails the
pattern) — the shape a cleared/blanked or corrupt row takes. -/
def badFyRow : List Cell :=
  [Cell.s "x1", Cell.s "f1", Cell.s "CA", Cell.s "bad", Cell.num 5]

/-- Update payload with no keys (`update(id, dict())`). -/
def noUpdates : Updates := {}

/-- Update payload setting `amount` to a non-positive value, which the
merged re-validation must reject. -/
def negativeAmountUpdate : Updates := { amount := some (-5) }

/-- The entity `shortRow` decodes to: every missing trailing cell takes its
documented default. -/
def shortRowEntity (now : Nat) : ContributionModel :=
  { id := "s1", funder_id := "f1", state_code := "CA", fiscal_year := "2024-25",
    amount := 100, date := none, status := .pending, description := none,
    metadata := [], created_at := now, updated_at := now }

/-- The entity `badJsonRow` decodes to: metadata defaulted to the empty
object, everything else kept. -/
def badJsonEntity (now : Nat) : ContributionModel :=
  { id := "s3", funder_id := "f1", state_code := "CA", fiscal_year := "2024-25",
    amount := 250, date := none, status := .confirmed, description := some "note",
    metadata := [], created_at := 3, updated_at := now }

/-- A state whose per-id and list caches hold the demo "b" entity (a warm
cache, as left behind by earlier reads). -/
def warmState : RepoState :=
  { sheet := demoSheet,
    cache := [("Contributions:b", ⟨demoContribution "b" 30000 .received, 1000⟩)],
    listCache := some ⟨[demoContribution "b" 30000 .received], 1000⟩ }

/-- Update payload setting the status to confirmed. -/
def statusConfirmUpdate : Updates := { status := some ContributionStatus.confirmed }

/-! ## Shared helper lemmas -/

/-- Decoding the value string of a status yields that status back. -/
theorem statusRoundTrip (st : ContributionStatus) :
    parseStatusCell (Cell.s (statusValue st)) = st := by
  cases st <;> rfl

/-- `find?` over an append skips a first block containing no match. -/
theorem find?_append_of_forall_not {p : α → Bool} {l₁ l₂ : List α}
    (h : ∀ a ∈ l₁, ¬ p a = true) :
    List.find? p (l₁ ++ l₂) = List.find? p l₂ := by
  rw [List.find?_append, List.find?_eq_none.2 h, Option.none_or]

/-- `findIdx?` over a block with no match followed by a match lands exactly
at the first block's length. -/
theorem findIdx?_append_first {p : α → Bool} {l₁ l₂ : List α} {x : α}
    (h : ∀ a ∈ l₁, ¬ p a = true) (hx : p x = true) :
    List.findIdx? p (l₁ ++ x :: l₂) = some l₁.length := by
  rw [List.findIdx?_append]
  have h1 : List.findIdx? p l₁ = none :=
    List.findIdx?_eq_none_iff.2 (fun a ha => by simpa using h a ha)
  have h2 : List.findIdx? p (x :: l₂) = some 0 := by
    rw [List.findIdx?_cons, if_pos hx]
  rw [h1, h2]
  simp

/-- When every element decodes, `filterMap` preserves positions. -/
theorem filterMap_getElem?_of_all_some {α β : Type} (f : α → Option β) :
    ∀ (l : List α), (∀ a ∈ l, (f a).isSome) →
      ∀ i : Nat, (List.filterMap f l)[i]? = l[i]?.bind f := by
  intro l
  induction l with
  | nil => intro _ i; simp
  | cons a l ih =>
    intro h i
    obtain ⟨b, hb⟩ := Option.isSome_iff_exists.1 (h a (by simp))
    rw [List.filterMap_cons_some hb]
    cases i with
    | zero => simp [hb]
    | succ j => simpa using ih (fun x hx => h x (by simp [hx])) j

/-- `filterMap` keeps the full length exactly when every element decodes. -/
theorem length_filterMap_eq_iff {α β : Type} (f : α → Option β) :
    ∀ (l : List α), (List.filterMap f l).length = l.length ↔ ∀ a ∈ l, (f a).isSome := by
  intro l
  induction l with
  | nil => simp
  | cons a l ih =>
    cases hfa : f a with
    | none =>
      rw [List.filterMap_cons_none hfa]
      simp only [List.length_cons]
      constructor
      · intro h
        exact absurd h (by
          have := List.length_filterMap_le f l
          omega)
      · intro h
        exact absurd (h a (by simp)) (by simp [hfa])
    | some b =>
      rw [List.filterMap_cons_some hfa]
      simp only [List.length_cons, Nat.add_right_cancel_iff, ih]
      constructor
      · intro h x hx
        simp only [List.mem_cons] at hx
        rcases hx with hx | hx
        · simp [hx, hfa]
        · exact h x hx
      · intro h x hx
        exact h x (by simp [hx])

/-- Erasing the unique entry with a key makes a later lookup of that key
miss. -/
theorem find?_eraseP_of_unique {l : List (String × CacheEntry ContributionModel)}
    {k : String} (h : l.Pairwise (fun a b => a.1 ≠ b.1)) :
    (l.eraseP (fun q => q.1 = k)).find? (fun q => q.1 = k) = none := by
  induction l with
  | nil => rfl
  | cons a l ih =>
    rcases List.pairwise_cons.1 h with ⟨ha, hl⟩
    by_cases hk : a.1 = k
    · have hd : (decide (a.1 = k)) = true := by simp [hk]
      rw [List.eraseP_cons, hd, cond_true]
      exact List.find?_eq_none.2 (fun x hx => by
        simp only [decide_eq_true_eq]
        intro hxk
        exact ha x hx (by rw [hk, hxk]))
    · have hd : (decide (a.1 = k)) = false := by simp [hk]
      rw [List.eraseP_cons, hd, cond_false]
      simp only [List.find?_cons, hd]
      exact ih hl

/-- The remote traffic of one `get_all` call is nothing (cache hit) or one
`read_range`. -/
theorem get_all_ops (now : Nat) (s : RepoState) :
    (get_all now s).2.2 = [] ∨ (get_all now s).2.2 = [RemoteOp.readRange] := by
  unfold get_all
  cases s.listCache with
  | none => right; rfl
  | some e =>
    by_cases h : e.isExpired now
    · right; simp [h]
    · left; simp [h]

/-- The remote traffic of one `get_by_id` call is nothing or one
`read_range`. -/
theorem get_by_id_ops (entityId : String) (now : Nat) (s : RepoState) :
    (get_by_id entityId now s).2.2 = [] ∨
      (get_by_id entityId now s).2.2 = [RemoteOp.readRange] := by
  rcases hc : getFromCache (cacheKey entityId) now s with ⟨copt, s1⟩
  cases copt with
  | some e => left; simp [get_by_id, hc]
  | none =>
    have hops := get_all_ops now s1
    rcases hg : get_all now s1 with ⟨ents, s2, ops⟩
    rw [hg] at hops
    simp only [get_by_id, hc, hg]
    cases hf : ents.find? (fun c => c.id = entityId) with
    | some e => simpa [hf] using hops
    | none => simpa [hf] using hops

/-- No write-side op ever appears in `get_by_id` traffic. -/
theorem get_by_id_ops_no_write (entityId : String) (now : Nat) (s : RepoState) :
    ∀ op ∈ (get_by_id entityId now s).2.2, op.isWrite = false := by
  rcases get_by_id_ops entityId now s with h | h <;> rw [h] <;> simp [RemoteOp.isWrite]

/-- `row_to_model` on an explicit 11-cell row, written out. -/
theorem row_to_model_eleven (c0 c1 c2 c3 c4 c5 c6 c7 c8 c9 c10 : Cell) (now : Nat) :
    row_to_model [c0, c1, c2, c3, c4, c5, c6, c7, c8, c9, c10] now =
      (do
        let id ← strField c0
        let fid ← strField c1
        let st ← strField c2
        let fy ← strField c3
        let desc ← descField c7
        mkContribution
          { id := id
            funder_id := fid
            state_code := st
            fiscal_year := fy
            amount := parseAmountCell c4
            date := parseDateCell c5
            status := parseStatusCell c6
            description := desc
            metadata := parseMetadataCell c8
            created_at := parseTimestampCell c9 now
            updated_at := parseTimestampCell c10 now }
          now) := rfl

/-- Pydantic construction succeeds and is the identity (modulo `updated_at`
and the normalisations, which fix the listed canonical inputs) on field
values satisfying the validators. -/
theorem mkContribution_valid (id fid stc fy : String) (amt : Rat) (date : Option Nat)
    (st : ContributionStatus) (desc : Option String) (meta : List (String × String))
    (ca ua now : Nat)
    (h1 : 2 ≤ stc.length) (h2 : stc.length ≤ 3) (h3 : pyStrip (pyUpper stc) = stc)
    (h4 : fyCheck fy = true) (h5 : 0 < amt) (h6 : round2 amt = amt)
    (h7 : match desc with
          | none => True
          | some d => d.length ≤ 500) :
    mkContribution ⟨id, fid, stc, fy, amt, date, st, desc, meta, ca, ua⟩ now =
      some ⟨id, fid, stc, fy, amt, date, st, desc, meta, ca, now⟩ := by
  cases desc with
  | none =>
    simp only [mkContribution, h1, h2, h3, h4, h6, decide_eq_true_eq]
    simp [h1, h2, h4, h5, h3, h6]
  | some d =>
    have h8 : d.length ≤ 500 := h7
    simp only [mkContribution, h3, h6]
    simp [h1, h2, h4, h5, h8, h3, h6]

/-- Row-codec round trip: decoding the encoded row of a canonical entity
reproduces it exactly, except that `updated_at` is regenerated at decode
time by the `update_timestamp` validator. -/
theorem row_to_model_round (e : ContributionModel) (hv : validNormalized e = true)
    (now : Nat) :
    row_to_model (model_to_row e) now = some { e with updated_at := now } := by
  obtain ⟨id, fid, stc, fy, amt, date, st, desc, meta, ca, ua⟩ := e
  simp only [validNormalized, Bool.and_eq_true, decide_eq_true_eq] at hv
  obtain ⟨⟨⟨⟨⟨⟨h1, h2⟩, h3⟩, h4⟩, h5⟩, h6⟩, h7⟩ := hv
  have hamt : amt ≠ 0 := ne_of_gt h5
  cases date <;> cases desc <;>
    [skip;
     (simp only [Bool.and_eq_true, decide_eq_true_eq] at h7);
     skip;
     (simp only [Bool.and_eq_true, decide_eq_true_eq] at h7)] <;>
    simp only [model_to_row] <;>
    rw [row_to_model_eleven] <;>
    simp only [strField, descField, Cell.truthy, parseAmountCell, parseDateCell,
      parseMetadataCell, parseTimestampCell, statusRoundTrip, Option.getD_none,
      Option.getD_some, Option.some_bind, ne_eq, decide_not, hamt, not_false_eq_true,
      decide_True, Bool.not_false, if_true, if_pos, reduceIte, decide_False,
      Bool.not_true, Bool.false_eq_true, if_false] <;>
    first
    | exact mkContribution_valid _ _ _ _ _ _ _ _ _ _ _ _ h1 h2 h3 h4 h5 h6 trivial
    | (rename_i d
       have hne : (decide (d = "")) = false := by simp [h7.1]
       simp only [hne, Bool.not_false, if_true, Option.some_bind]
       exact mkContribution_valid _ _ _ _ _ _ _ _ _ _ _ _ h1 h2 h3 h4 h5 h6 h7.2)

/-- Encoded rows already have the full column count, so padding is the
identity on them. -/
theorem padRow_model_to_row (m : ContributionModel) :
    padRow (model_to_row m) = model_to_row m := by
  simp [padRow, model_to_row, contributionHeaders]

/-- Fixture entities are canonical whenever their amount is positive and
two-decimal. -/
theorem validNormalized_demo (i : String) (amt : Rat) (st : ContributionStatus)
    (h1 : 0 < amt) (h2 : round2 amt = amt) :
    validNormalized (demoContribution i amt st) = true := by
  simp +decide [validNormalized, demoContribution, h1, h2, ne_of_gt h1]

/-- Decoding the aggregation fixture sheet yields its three entities, with
`updated_at` regenerated. -/
theorem parseSheet_demo (now : Nat) :
    parseSheet demoSheet now =
      [{ demoContribution "a" 50000 .confirmed with updated_at := now },
       { demoContribution "b" 30000 .received with updated_at := now },
       { demoContribution "c" 20000 .pending with updated_at := now }] := by
  have hva := validNormalized_demo "a" 50000 ContributionStatus.confirmed
    (by norm_num) (by norm_num [round2, roundHalfEven])
  have hvb := validNormalized_demo "b" 30000 ContributionStatus.received
    (by norm_num) (by norm_num [round2, roundHalfEven])
  have hvc := validNormalized_demo "c" 20000 ContributionStatus.pending
    (by norm_num) (by norm_num [round2, roundHalfEven])
  simp only [parseSheet, demoSheet, List.drop_succ_cons, List.drop_zero,
    List.filterMap_cons, List.filterMap_nil, padRow_model_to_row,
    row_to_model_round _ hva now, row_to_model_round _ hvb now,
    row_to_model_round _ hvc now]

/-! ## Claim theorems -/

/-- C7: a client operation that fails with HTTP 401 raises an authentication
error immediately with zero retries — the operation function is invoked
exactly once, no backoff is slept — and the stored credentials are
invalidated. -/
theorem retry_401_immediate {α : Type} (cfg : RetryConfig) (op : Nat → AttemptOutcome α)
    (jit : Nat → Rat) (q : Bool) (hop : op 0 = AttemptOutcome.http 401 q) :
    (executeWithRetry cfg op jit).result = Except.error SheetsErrKind.auth ∧
    (executeWithRetry cfg op jit).calls = 1 ∧
    (executeWithRetry cfg op jit).delays = [] ∧
    (executeWithRetry cfg op jit).credentialsInvalidated = true := by
  unfold executeWithRetry
  rw [retryGo, hop]
  simp

/-- Witness for C7: the concrete always-401 operation under the default
config. -/
theorem retry_401_immediate_witness :
    (executeWithRetry defaultRetryConfig
        (fun _ => AttemptOutcome.http 401 true : Nat → AttemptOutcome Nat)
        (fun _ => (3 : Rat)/4)).result = Except.error SheetsErrKind.auth ∧
    (executeWithRetry defaultRetryConfig
        (fun _ => AttemptOutcome.http 401 true : Nat → AttemptOutcome Nat)
        (fun _ => (3 : Rat)/4)).calls = 1 ∧
    (executeWithRetry defaultRetryConfig
        (fun _ => AttemptOutcome.http 401 true : Nat → AttemptOutcome Nat)
        (fun _ => (3 : Rat)/4)).delays = [] ∧
    (executeWithRetry defaultRetryConfig
        (fun _ => AttemptOutcome.http 401 true : Nat → AttemptOutcome Nat)
        (fun _ => (3 : Rat)/4)).credentialsInvalidated = true :=
  retry_401_immediate defaultRetryConfig _ _ true rfl

/-- C3: with the default configuration (`max_retries = 3`), an operation
that raises HTTP 500 on its first two attempts and succeeds on the third
succeeds overall, runs exactly three times, and the two backoff delays slept
between consecutive attempts are the `_calculate_delay` values (jitter
factors in [1/2, 1)) and are monotonically non-decreasing. -/
theorem retry_500_500_ok {α : Type} (x : α) (jit : Nat → Rat)
    (hjl : ∀ n, 1/2 ≤ jit n) (hju : ∀ n, jit n < 1) :
    (executeWithRetry defaultRetryConfig
        (fun n => if n < 2 then AttemptOutcome.http 500 false else AttemptOutcome.ok x)
        jit).result = Except.ok x ∧
    (executeWithRetry defaultRetryConfig
        (fun n => if n < 2 then AttemptOutcome.http 500 false else AttemptOutcome.ok x)
        jit).calls = 3 ∧
    (executeWithRetry defaultRetryConfig
        (fun n => if n < 2 then AttemptOutcome.http 500 false else AttemptOutcome.ok x)
        jit).delays =
      [calculateDelay defaultRetryConfig (jit 0) 0,
       calculateDelay defaultRetryConfig (jit 1) 1] ∧
    List.Chain' (· ≤ ·)
      (executeWithRetry defaultRetryConfig
        (fun n => if n < 2 then AttemptOutcome.http 500 false else AttemptOutcome.ok x)
        jit).delays := by
  have hcomp : executeWithRetry defaultRetryConfig
      (fun n => if n < 2 then AttemptOutcome.http 500 false else AttemptOutcome.ok x)
      jit =
      ⟨Except.ok x, 3,
       [calculateDelay defaultRetryConfig (jit 0) 0,
        calculateDelay defaultRetryConfig (jit 1) 1], false⟩ := by
    simp [executeWithRetry, retryGo, defaultRetryConfig]
  refine ⟨by rw [hcomp], by rw [hcomp], by rw [hcomp], ?_⟩
  rw [hcomp]
  have hd : calculateDelay defaultRetryConfig (jit 0) 0 ≤
      calculateDelay defaultRetryConfig (jit 1) 1 := by
    simp only [calculateDelay, defaultRetryConfig]
    norm_num
    nlinarith [hjl 1, hju 0]
  simp [hd]

/-- Witness for C3: the two-failures-then-success operation with constant
jitter factor 3/4. -/
theorem retry_500_500_ok_witness :
    (∀ n : Nat, (1 : Rat)/2 ≤ (fun _ : Nat => (3 : Rat)/4) n) ∧
    (∀ n : Nat, (fun _ : Nat => (3 : Rat)/4) n < 1) ∧
    ((executeWithRetry defaultRetryConfig
        (fun n => if n < 2 then AttemptOutcome.http 500 false else AttemptOutcome.ok 42)
        (fun _ => (3 : Rat)/4)).result = Except.ok 42 ∧
     (executeWithRetry defaultRetryConfig
        (fun n => if n < 2 then AttemptOutcome.http 500 false else AttemptOutcome.ok 42)
        (fun _ => (3 : Rat)/4)).calls = 3 ∧
     (executeWithRetry defaultRetryConfig
        (fun n => if n < 2 then AttemptOutcome.http 500 false else AttemptOutcome.ok 42)
        (fun _ => (3 : Rat)/4)).delays =
       [calculateDelay defaultRetryConfig ((3 : Rat)/4) 0,
        calculateDelay defaultRetryConfig ((3 : Rat)/4) 1] ∧
     List.Chain' (· ≤ ·)
       (executeWithRetry defaultRetryConfig
         (fun n => if n < 2 then AttemptOutcome.http 500 false else AttemptOutcome.ok 42)
         (fun _ => (3 : Rat)/4)).delays) :=
  ⟨fun _ => by norm_num, fun _ => by norm_num,
   retry_500_500_ok 42 (fun _ => (3 : Rat)/4) (fun _ => by norm_num) (fun _ => by norm_num)⟩

/-- C9: `get_total_by_state` sums the amounts of exactly those contributions
for the state whose status is CONFIRMED or RECEIVED (PENDING and CANCELLED
excluded), and on the spec's CA fixture (confirmed 50k, received 30k,
pending 20k) it returns exactly 80000. -/
theorem get_total_by_state_confirmed_received :
    (∀ (stateCode : String) (now : Nat) (s : RepoState),
      (get_total_by_state stateCode none now s).1 =
        (((get_all now s).1.filter
            (fun c => c.state_code = pyUpper stateCode)).filter
          countsTowardTotal).foldl (fun acc c => acc + c.amount) 0) ∧
    (get_total_by_state "CA" none 10 (freshState demoSheet)).1 = 80000 := by
  constructor
  · intro stateCode now s
    simp only [get_total_by_state, find_by_state, find_by_field, List.filter_filter]
    congr 1
    apply List.filter_congr
    intro c _
    simp [getattrField, countsTowardTotal]
  · have hca : pyUpper "CA" = "CA" := by decide
    simp only [get_total_by_state, find_by_state, find_by_field, get_all, freshState,
      parseSheet_demo, hca]
    norm_num +decide [getattrField, countsTowardTotal, demoContribution]

/-- A short row decodes with defaults for all missing trailing cells. -/
theorem row_to_model_shortRow (now : Nat) :
    row_to_model (padRow shortRow) now = some (shortRowEntity now) := by
  norm_num +decide [row_to_model, padRow, shortRow, contributionHeaders, emptyCell,
    strField, descField, parseAmountCell, parseDateCell, parseStatusCell,
    parseMetadataCell, parseTimestampCell, Cell.truthy, statusOfString,
    mkContribution, round2, roundHalfEven, shortRowEntity]

/-- A row with non-numeric amount text decodes to amount 0, which then fails
the `amount > 0` validator: the whole row is rejected (and hence skipped by
`get_all`). -/
theorem row_to_model_badAmountRow (now : Nat) :
    row_to_model (padRow badAmountRow) now = none := by
  norm_num +decide [row_to_model, padRow, badAmountRow, contributionHeaders, emptyCell,
    strField, descField, parseAmountCell, parseDateCell, parseStatusCell,
    parseMetadataCell, parseTimestampCell, Cell.truthy, statusOfString,
    mkContribution, round2, roundHalfEven, parseDecimal, parseUnsigned]

/-- A row with invalid JSON in the metadata cell decodes with metadata
defaulted to the empty object. -/
theorem row_to_model_badJsonRow (now : Nat) :
    row_to_model (padRow badJsonRow) now = some (badJsonEntity now) := by
  norm_num +decide [row_to_model, padRow, badJsonRow, contributionHeaders, emptyCell,
    strField, descField, parseAmountCell, parseDateCell, parseStatusCell,
    parseMetadataCell, parseTimestampCell, Cell.truthy, statusOfString,
    mkContribution, round2, roundHalfEven, badJsonEntity]

/-- C4: `get_all` never aborts on malformed data rows: every data row is
either included in the result as its decoded entity (per-field defaults
substituted) or skipped entirely, and on the concrete fixture the short row
and the invalid-JSON row are included with their documented defaults while
the non-numeric-amount row is skipped. -/
theorem get_all_malformed_contained :
    (∀ (now : Nat) (sheet : List (List Cell)) (row : List Cell), row ∈ sheet.drop 1 →
      (∃ c, row_to_model (padRow row) now = some c ∧
        c ∈ (get_all now (freshState sheet)).1) ∨
      row_to_model (padRow row) now = none) ∧
    (get_all 7 (freshState malformedSheet)).1 =
      [{ demoContribution "g1" 500 .confirmed with updated_at := 7 },
       shortRowEntity 7, badJsonEntity 7] ∧
    row_to_model (padRow badAmountRow) 7 = none := by
  refine ⟨?_, ?_, row_to_model_badAmountRow 7⟩
  · intro now sheet row hrow
    cases h : row_to_model (padRow row) now with
    | none => right; rfl
    | some c =>
      left
      refine ⟨c, rfl, ?_⟩
      simp only [get_all, freshState, parseSheet]
      exact List.mem_filterMap.2 ⟨row, hrow, h⟩
  · have hvg := validNormalized_demo "g1" 500 ContributionStatus.confirmed
      (by norm_num) (by norm_num [round2, roundHalfEven])
    simp only [get_all, freshState, parseSheet, malformedSheet, List.drop_succ_cons,
      List.drop_zero, List.filterMap_cons, List.filterMap_nil, padRow_model_to_row,
      row_to_model_round _ hvg 7, row_to_model_shortRow, row_to_model_badAmountRow,
      row_to_model_badJsonRow]

/-- Witness for C4's universally quantified containment conjunct at a
concrete malformed row of the fixture sheet. -/
theorem get_all_malformed_contained_witness :
    shortRow ∈ malformedSheet.drop 1 ∧
    ((∃ c, row_to_model (padRow shortRow) 7 = some c ∧
        c ∈ (get_all 7 (freshState malformedSheet)).1) ∨
      row_to_model (padRow shortRow) 7 = none) :=
  ⟨by simp [malformedSheet],
   get_all_malformed_contained.1 7 malformedSheet shortRow (by simp [malformedSheet])⟩

/-- C5: for an id that matches no entity in the table (and no stale cache
entry), `update` returns absent, issues no remote write call, and leaves the
backing table unchanged — the only traffic is the lookup read. -/
theorem update_absent_id_no_write (entityId : String) (u : Updates) (now : Nat)
    (s : RepoState) (hlc : s.listCache = none) (hpc : s.cache = [])
    (habsent : ∀ c ∈ parseSheet s.sheet now, c.id ≠ entityId) :
    (update entityId u now s).1 = Except.ok none ∧
    ((update entityId u now s).2.1).sheet = s.sheet ∧
    ∀ op ∈ (update entityId u now s).2.2, op.isWrite = false := by
  have hfind : (parseSheet s.sheet now).find? (fun c => c.id = entityId) = none :=
    List.find?_eq_none.2 (fun c hc => by simp [habsent c hc])
  simp only [update, get_by_id, getFromCache, hpc, hlc, List.find?_nil, get_all,
    hfind]
  simp [RemoteOp.isWrite]

/-- Witness for C5: updating a missing id over the demo fixture. -/
theorem update_absent_id_no_write_witness :
    ((freshState demoSheet).listCache = none) ∧
    ((freshState demoSheet).cache = []) ∧
    (∀ c ∈ parseSheet (freshState demoSheet).sheet 10, c.id ≠ "zzz") ∧
    ((update "zzz" noUpdates 10 (freshState demoSheet)).1 = Except.ok none ∧
     ((update "zzz" noUpdates 10 (freshState demoSheet)).2.1).sheet =
       (freshState demoSheet).sheet ∧
     ∀ op ∈ (update "zzz" noUpdates 10 (freshState demoSheet)).2.2,
       op.isWrite = false) := by
  have habs : ∀ c ∈ parseSheet (freshState demoSheet).sheet 10, c.id ≠ "zzz" := by
    intro c hc
    simp only [freshState] at hc
    rw [parseSheet_demo] at hc
    simp only [List.mem_cons, List.not_mem_nil, or_false] at hc
    rcases hc with rfl | rfl | rfl <;> simp [demoContribution]
  exact ⟨rfl, rfl, habs, update_absent_id_no_write "zzz" noUpdates 10
    (freshState demoSheet) rfl rfl habs⟩

/-- C2 (amended): a cold `get_all` issues exactly one remote read and a
repeat call within the TTL window issues none and returns the same list;
`create` always clears the all-entities cache entry, and an `update` or
`delete` that found a matching entity clears it as well, so the next
`get_all` issues a second remote read. (A no-op update/delete does not —
see the counterexample.) -/
theorem get_all_cache_hit_and_invalidation :
    (∀ (now : Nat) (s : RepoState), s.listCache = none →
      (get_all now s).2.2 = [RemoteOp.readRange]) ∧
    (∀ (now now2 : Nat) (s : RepoState), s.listCache = none →
      now2 ≤ now + cacheTTL →
      (get_all now2 (get_all now s).2.1).2.2 = [] ∧
      (get_all now2 (get_all now s).2.1).1 = (get_all now s).1) ∧
    (∀ (e : ContributionModel) (s : RepoState),
      ((create e s).2.1).listCache = none) ∧
    (∀ (entityId : String) (u : Updates) (now : Nat) (s : RepoState),
      isOkSome (update entityId u now s).1 = true →
      ((update entityId u now s).2.1).listCache = none) ∧
    (∀ (entityId : String) (now : Nat) (s : RepoState),
      (delete entityId now s).1 = true →
      ((delete entityId now s).2.1).listCache = none) := by
  refine ⟨?_, ?_, ?_, ?_, ?_⟩
  · intro now s h
    simp [get_all, h]
  · intro now now2 s h hle
    have hnexp : ¬ (now + cacheTTL < now2) := Nat.not_lt.2 hle
    simp [get_all, h, CacheEntry.isExpired, hnexp]
  · intro e s
    rfl
  · intro entityId u now s hok
    rcases hg : get_by_id entityId now s with ⟨cur, s1, ops1⟩
    cases cur with
    | none => simp [update, hg, isOkSome] at hok
    | some current =>
      cases hmk : mkContribution (applyUpdates current u) now with
      | none => simp [update, hg, hmk, isOkSome] at hok
      | some updated =>
        rcases hga : get_all now s1 with ⟨ents, s2, ops2⟩
        cases hfi : ents.findIdx? (fun c => c.id = entityId) with
        | none => simp [update, hg, hmk, hga, hfi, isOkSome] at hok
        | some i => simp [update, hg, hmk, hga, hfi, invalidateOne]
  · intro entityId now s hdel
    rcases hga : get_all now s with ⟨ents, s1, ops1⟩
    cases hfi : ents.findIdx? (fun c => c.id = entityId) with
    | none => simp [delete, hga, hfi] at hdel
    | some i => simp [delete, hga, hfi, invalidateOne]

/-- Counterexample to C2 as stated: a `delete` whose id matches no entity
returns false without touching the caches, so the following `get_all` within
the TTL window issues no second remote read. -/
theorem failed_delete_no_invalidation_counterexample :
    (get_all 10 (freshState demoSheet)).2.2 = [RemoteOp.readRange] ∧
    (delete "zzz" 10 ((get_all 10 (freshState demoSheet)).2.1)).1 = false ∧
    (get_all 10 ((delete "zzz" 10
        ((get_all 10 (freshState demoSheet)).2.1)).2.1)).2.2 = [] := by
  have hfi : (parseSheet demoSheet 10).findIdx? (fun c => c.id = "zzz") = none := by
    rw [parseSheet_demo]
    simp +decide [List.findIdx?_cons, demoContribution]
  norm_num +decide [get_all, delete, freshState, CacheEntry.isExpired, hfi, cacheTTL]

/-- Witness for C2's amended theorem: each implication instantiated at a
concrete input with its hypothesis discharged by computation. -/
theorem get_all_cache_hit_and_invalidation_witness :
    (get_all 10 (freshState demoSheet)).2.2 = [RemoteOp.readRange] ∧
    ((get_all 11 (get_all 10 (freshState demoSheet)).2.1).2.2 = [] ∧
     (get_all 11 (get_all 10 (freshState demoSheet)).2.1).1 =
       (get_all 10 (freshState demoSheet)).1) ∧
    ((create (demoContribution "d" 1 .pending) (freshState demoSheet)).2.1).listCache
      = none ∧
    ((update "b" statusConfirmUpdate 10 warmState).2.1).listCache = none ∧
    ((delete "b" 10 (freshState demoSheet)).2.1).listCache = none := by
  have hupd : isOkSome (update "b" statusConfirmUpdate 10 warmState).1 = true := by
    norm_num +decide [update, get_by_id, getFromCache, warmState, statusConfirmUpdate,
      get_all, CacheEntry.isExpired, cacheKey, mkContribution, applyUpdates,
      demoContribution, isOkSome, List.findIdx?_cons]
  have hdel : (delete "b" 10 (freshState demoSheet)).1 = true := by
    have hfib : (parseSheet demoSheet 10).findIdx? (fun c => c.id = "b") = some 1 := by
      rw [parseSheet_demo]
      simp +decide [List.findIdx?_cons, demoContribution]
    norm_num +decide [delete, get_all, freshState, hfib]
  exact ⟨get_all_cache_hit_and_invalidation.1 10 (freshState demoSheet) rfl,
         get_all_cache_hit_and_invalidation.2.1 10 11 (freshState demoSheet) rfl
           (by norm_num [cacheTTL]),
         get_all_cache_hit_and_invalidation.2.2.1 (demoContribution "d" 1 .pending)
           (freshState demoSheet),
         get_all_cache_hit_and_invalidation.2.2.2.1 "b" statusConfirmUpdate 10
           warmState hupd,
         get_all_cache_hit_and_invalidation.2.2.2.2 "b" 10 (freshState demoSheet) hdel⟩

/-- A found index points at an element satisfying the predicate. -/
theorem findIdx?_some_pred {α : Type} {p : α → Bool} {l : List α} {i : Nat}
    (h : List.findIdx? p l = some i) : ∃ a, l[i]? = some a ∧ p a = true := by
  rcases List.findIdx?_eq_some_iff_findIdx_eq.1 h with ⟨hlt, hidx⟩
  refine ⟨l.get ⟨i, hlt⟩, by simp [List.getElem?_eq_getElem hlt], ?_⟩
  have := @List.findIdx_getElem _ p l (by rw [hidx]; exact hlt)
  simpa [hidx] using this

/-- C6: on a sheet whose data rows all decode, `delete` of an id found at
position i of the most recent `get_all` scan issues exactly one
`clear_range` of sheet row i+2 (the header is row 1), blanks exactly that
physical row — which indeed held the matching entity — shifts nothing,
invalidates the per-id and list cache entries, and returns true; when no
entity matches it returns false. -/
theorem delete_clears_scanned_row (s : RepoState) (now : Nat) (entityId : String)
    (hlc : s.listCache = none)
    (hclean : ∀ r ∈ s.sheet.drop 1, (row_to_model (padRow r) now).isSome)
    (hcu : CacheKeysUnique s) :
    (∀ i, ((get_all now s).1.findIdx? (fun c => c.id = entityId)) = some i →
      (delete entityId now ((get_all now s).2.1)).1 = true ∧
      (delete entityId now ((get_all now s).2.1)).2.2 = [RemoteOp.clearRange (i + 2)] ∧
      ((delete entityId now ((get_all now s).2.1)).2.1).sheet.length = s.sheet.length ∧
      ((delete entityId now ((get_all now s).2.1)).2.1).sheet[i + 1]? = some [] ∧
      (∀ j, j ≠ i + 1 →
        ((delete entityId now ((get_all now s).2.1)).2.1).sheet[j]? = s.sheet[j]?) ∧
      (∃ row, s.sheet[i + 1]? = some row ∧
        ∃ e, row_to_model (padRow row) now = some e ∧ e.id = entityId) ∧
      ((delete entityId now ((get_all now s).2.1)).2.1).listCache = none ∧
      (((delete entityId now ((get_all now s).2.1)).2.1).cache.find?
        (fun q => q.1 = cacheKey entityId) = none)) ∧
    (((get_all now s).1.findIdx? (fun c => c.id = entityId)) = none →
      (delete entityId now ((get_all now s).2.1)).1 = false) := by
  have hga : get_all now s =
      (parseSheet s.sheet now,
       { s with listCache := some ⟨parseSheet s.sheet now, now + cacheTTL⟩ },
       [RemoteOp.readRange]) := by
    simp [get_all, hlc]
  have hnexp : ¬ (now + cacheTTL < now) := by omega
  have hga2 : get_all now ((get_all now s).2.1) =
      (parseSheet s.sheet now,
       { s with listCache := some ⟨parseSheet s.sheet now, now + cacheTTL⟩ }, []) := by
    rw [hga]
    simp [get_all, CacheEntry.isExpired, hnexp]
  have hlen : (parseSheet s.sheet now).length = s.sheet.length - 1 := by
    rw [parseSheet, (length_filterMap_eq_iff _ _).2 hclean, List.length_drop]
  constructor
  · intro i hfi
    rw [hga] at hfi
    have hilt : i < (parseSheet s.sheet now).length :=
      (List.findIdx?_eq_some_iff_findIdx_eq.1 hfi).1
    have hi1 : i + 1 < s.sheet.length := by omega
    obtain ⟨e, hei, hpe⟩ := findIdx?_some_pred hfi
    have hrow : (s.sheet.drop 1)[i]?.bind
        (fun r => row_to_model (padRow r) now) = some e := by
      rw [← filterMap_getElem?_of_all_some _ _ hclean i, ← parseSheet, hei]
    rw [List.getElem?_drop] at hrow
    obtain ⟨row, hrowe, hparse⟩ : ∃ row, s.sheet[1 + i]? = some row ∧
        row_to_model (padRow row) now = some e := by
      cases hr : s.sheet[1 + i]? with
      | none => rw [hr] at hrow; simp at hrow
      | some r => rw [hr] at hrow; exact ⟨r, rfl, by simpa using hrow⟩
    have hdel : delete entityId now ((get_all now s).2.1) =
        (true,
         invalidateOne
           { s with
             sheet := setSheetRow s.sheet (i + 2) []
             listCache := some ⟨parseSheet s.sheet now, now + cacheTTL⟩ } entityId,
         [RemoteOp.clearRange (i + 2)]) := by
      simp only [delete, hga2, hfi]
      rfl
    refine ⟨by rw [hdel], by rw [hdel], ?_, ?_, ?_, ?_, ?_, ?_⟩
    · rw [hdel]
      simp [invalidateOne, setSheetRow]
    · rw [hdel]
      simp only [invalidateOne, setSheetRow]
      simpa using List.getElem?_set_self (by simpa using hi1)
    · intro j hj
      rw [hdel]
      simp only [invalidateOne, setSheetRow]
      simpa using List.getElem?_set_ne (by omega)
    · exact ⟨row, by rw [← hrowe]; congr 1; omega, e, hparse, by simpa using hpe⟩
    · rw [hdel]; rfl
    · rw [hdel]
      simp only [invalidateOne]
      exact find?_eraseP_of_unique hcu
  · intro hfi
    rw [hga] at hfi
    simp [delete, hga2, hfi]

/-- Witness for C6: deleting "b" from the three-row fixture clears sheet row
number 3 (index 2) and not the first data row. -/
theorem delete_clears_scanned_row_witness :
    (delete "b" 10 ((get_all 10 (freshState demoSheet)).2.1)).1 = true ∧
    (delete "b" 10 ((get_all 10 (freshState demoSheet)).2.1)).2.2 =
      [RemoteOp.clearRange 3] ∧
    ((delete "b" 10 ((get_all 10 (freshState demoSheet)).2.1)).2.1).sheet[2]? =
      some [] := by
  have hclean : ∀ r ∈ (freshState demoSheet).sheet.drop 1,
      (row_to_model (padRow r) 10).isSome := by
    intro r hr
    simp only [freshState, demoSheet, List.drop_succ_cons, List.drop_zero,
      List.mem_cons, List.not_mem_nil, or_false] at hr
    rcases hr with rfl | rfl | rfl <;>
      rw [padRow_model_to_row, row_to_model_round _
        (validNormalized_demo _ _ _ (by norm_num)
          (by norm_num [round2, roundHalfEven])) 10] <;> rfl
  have hfi : ((get_all 10 (freshState demoSheet)).1.findIdx?
      (fun c => c.id = "b")) = some 1 := by
    have hl : (get_all 10 (freshState demoSheet)).1 = parseSheet demoSheet 10 := by
      simp [get_all, freshState]
    rw [hl, parseSheet_demo]
    simp +decide [List.findIdx?_cons, demoContribution]
  have h := (delete_clears_scanned_row (freshState demoSheet) 10 "b" rfl hclean
    (by simp [CacheKeysUnique, freshState])).1 1 hfi
  exact ⟨h.1, h.2.1, h.2.2.2.1⟩

/-- A row whose fiscal-year cell fails the pattern decodes to nothing —
the shape a blanked or corrupt row takes. -/
theorem row_to_model_badFyRow (now : Nat) :
    row_to_model (padRow badFyRow) now = none := by
  norm_num +decide [row_to_model, padRow, badFyRow, contributionHeaders, emptyCell,
    strField, descField, parseAmountCell, parseDateCell, parseStatusCell,
    parseMetadataCell, parseTimestampCell, Cell.truthy, statusOfString,
    mkContribution, fyCheck, splitOnChar]

/-- A fresh, unexpired list-cache entry short-circuits `get_all`. -/
theorem get_all_hit (now t : Nat) (d : List ContributionModel) (s : RepoState)
    (h : s.listCache = some ⟨d, t⟩) (hle : now ≤ t) :
    get_all now s = (d, s, []) := by
  simp [get_all, h, CacheEntry.isExpired, Nat.not_lt.2 hle]

/-- C10: `update` and `delete` target physical sheet row i+2 where i is the
entity's index in the parse-filtered scan, a list from which undecodable
rows have been dropped; that target equals the entity's actual sheet row
(`pre.length + 2` for the first matching row) exactly when every preceding
data row decoded successfully. -/
theorem positional_target_counts_only_parsed_rows
    (hdr : List Cell) (pre post : List (List Cell)) (erow : List Cell) (now : Nat)
    (e : ContributionModel) (u : Updates) (e2 : ContributionModel)
    (hparse : row_to_model (padRow erow) now = some e)
    (hpre : ∀ r ∈ pre, ∀ c, row_to_model (padRow r) now = some c → c.id ≠ e.id)
    (hmk : mkContribution (applyUpdates e u) now = some e2) :
    (delete e.id now (freshState (hdr :: (pre ++ erow :: post)))).2.2 =
      [RemoteOp.readRange,
       RemoteOp.clearRange
         ((pre.filterMap (fun r => row_to_model (padRow r) now)).length + 2)] ∧
    (update e.id u now (freshState (hdr :: (pre ++ erow :: post)))).2.2 =
      [RemoteOp.readRange,
       RemoteOp.writeRange
         ((pre.filterMap (fun r => row_to_model (padRow r) now)).length + 2)
         (model_to_row e2)] ∧
    ((pre.filterMap (fun r => row_to_model (padRow r) now)).length + 2 =
        pre.length + 2
      ↔ ∀ r ∈ pre, (row_to_model (padRow r) now).isSome) := by
  set f : List Cell → Option ContributionModel :=
    fun r => row_to_model (padRow r) now with hf
  have hpre' : ∀ a ∈ pre.filterMap f, ¬ (decide (a.id = e.id)) = true := by
    intro a ha
    rcases List.mem_filterMap.1 ha with ⟨r, hr, hfr⟩
    simp only [decide_eq_true_eq]
    exact hpre r hr a hfr
  have hsheet : parseSheet (hdr :: (pre ++ erow :: post)) now =
      pre.filterMap f ++ e :: post.filterMap f := by
    simp only [parseSheet, List.drop_succ_cons, List.drop_zero, List.filterMap_append,
      hf]
    rw [@List.filterMap_cons_some _ _ (fun r => row_to_model (padRow r) now)
      erow post e hparse]
  have hga : get_all now (freshState (hdr :: (pre ++ erow :: post))) =
      (pre.filterMap f ++ e :: post.filterMap f,
       { freshState (hdr :: (pre ++ erow :: post)) with
         listCache := some ⟨pre.filterMap f ++ e :: post.filterMap f,
           now + cacheTTL⟩ },
       [RemoteOp.readRange]) := by
    simp [get_all, freshState, hsheet]
  have hfi : (pre.filterMap f ++ e :: post.filterMap f).findIdx?
      (fun c => c.id = e.id) = some (pre.filterMap f).length :=
    findIdx?_append_first hpre' (by simp)
  have hfind : (pre.filterMap f ++ e :: post.filterMap f).find?
      (fun c => c.id = e.id) = some e := by
    rw [find?_append_of_forall_not hpre']
    simp [List.find?_cons]
  refine ⟨?_, ?_, ?_⟩
  · simp only [delete, hga, hfi]
    rfl
  · have hgfc : ∀ k sheet, getFromCache k now (freshState sheet) =
        (none, freshState sheet) := by
      intro k sheet
      simp [getFromCache, freshState]
    simp only [update, get_by_id, hgfc, hga, hfind, hmk]
    simp only [setCache, freshState, List.eraseP_nil]
    set S2 : RepoState :=
      { sheet := hdr :: (pre ++ erow :: post),
        cache := [(cacheKey e.id, ⟨e, now + cacheTTL⟩)],
        listCache := some ⟨List.filterMap f pre ++ e :: List.filterMap f post,
          now + cacheTTL⟩ } with hS2
    have hga2 : get_all now S2 =
        (List.filterMap f pre ++ e :: List.filterMap f post, S2, []) :=
      get_all_hit now (now + cacheTTL) _ S2 (by rw [hS2]) (Nat.le_add_right _ _)
    rw [hga2]
    simp only [hfi]
    rfl
  · constructor
    · intro hlen
      exact (length_filterMap_eq_iff f pre).1 (by omega)
    · intro hall
      rw [(length_filterMap_eq_iff f pre).2 hall]

/-- Witness for C10: with one undecodable row before the entity, both the
clear target and the write target land on row 2 — the undecodable row's
slot — while the entity actually sits in row 3. -/
theorem positional_target_counts_only_parsed_rows_witness :
    (delete ({ demoContribution "a" 50000 ContributionStatus.confirmed with
        updated_at := 10 } : ContributionModel).id 10
      (freshState (headerRow ::
        ([badFyRow] ++
          model_to_row (demoContribution "a" 50000 ContributionStatus.confirmed)
            :: [])))).2.2 =
      [RemoteOp.readRange,
       RemoteOp.clearRange
         (([badFyRow].filterMap (fun r => row_to_model (padRow r) 10)).length + 2)] ∧
    ([badFyRow].filterMap (fun r => row_to_model (padRow r) 10)).length + 2 ≠
      [badFyRow].length + 2 := by
  have hv := validNormalized_demo "a" 50000 ContributionStatus.confirmed
    (by norm_num) (by norm_num [round2, roundHalfEven])
  have hparse : row_to_model
      (padRow (model_to_row (demoContribution "a" 50000 ContributionStatus.confirmed)))
      10 = some { demoContribution "a" 50000 ContributionStatus.confirmed with
        updated_at := 10 } := by
    rw [padRow_model_to_row, row_to_model_round _ hv 10]
  have hpre : ∀ r ∈ [badFyRow], ∀ c, row_to_model (padRow r) 10 = some c →
      c.id ≠ ({ demoContribution "a" 50000 ContributionStatus.confirmed with
        updated_at := 10 } : ContributionModel).id := by
    intro r hr c hc
    simp only [List.mem_singleton] at hr
    subst hr
    rw [row_to_model_badFyRow] at hc
    cases hc
  have hmk : mkContribution
      (applyUpdates ({ demoContribution "a" 50000 ContributionStatus.confirmed with
        updated_at := 10 } : ContributionModel) noUpdates) 10 =
      some { demoContribution "a" 50000 ContributionStatus.confirmed with
        updated_at := 10 } := by
    simp only [applyUpdates, noUpdates, Option.getD_none, demoContribution]
    exact mkContribution_valid "a" "f1" "CA" "2024-25" 50000 none
      ContributionStatus.confirmed none [] 1 10 10
      (by decide) (by decide) (by decide) (by decide) (by norm_num)
      (by norm_num [round2, roundHalfEven]) trivial
  have h := positional_target_counts_only_parsed_rows headerRow [badFyRow] []
    (model_to_row (demoContribution "a" 50000 ContributionStatus.confirmed)) 10
    ({ demoContribution "a" 50000 ContributionStatus.confirmed with
      updated_at := 10 } : ContributionModel) noUpdates
    ({ demoContribution "a" 50000 ContributionStatus.confirmed with
      updated_at := 10 } : ContributionModel) hparse hpre hmk
  refine ⟨h.1, fun hc => ?_⟩
  have hall := h.2.2.1 hc badFyRow (by simp)
  rw [row_to_model_badFyRow] at hall
  simp at hall

/-- C8 (amended): a `create` payload failing model validation raises before
any remote call at all; an `update` whose merged entity fails re-validation
raises before any remote write — though its `get_by_id` load may already
have issued a remote read (see the counterexample). -/
theorem validation_before_remote_write :
    (∀ (r : RawContribution) (now : Nat) (s : RepoState),
      mkContribution r now = none →
      create_from_fields r now s = (Except.error (), s, [])) ∧
    (∀ (entityId : String) (u : Updates) (now : Nat) (s : RepoState),
      (update entityId u now s).1 = Except.error () →
      ∀ op ∈ (update entityId u now s).2.2, op.isWrite = false) := by
  constructor
  · intro r now s h
    simp [create_from_fields, h]
  · intro entityId u now s herr op hop
    rcases hg : get_by_id entityId now s with ⟨cur, s1, ops1⟩
    have hops1 : ∀ o ∈ ops1, o.isWrite = false := by
      have h0 := get_by_id_ops_no_write entityId now s
      rw [hg] at h0
      exact h0
    cases cur with
    | none => simp [update, hg] at herr
    | some current =>
      cases hmk : mkContribution (applyUpdates current u) now with
      | none =>
        have hops : (update entityId u now s).2.2 = ops1 := by
          simp [update, hg, hmk]
        rw [hops] at hop
        exact hops1 op hop
      | some updated =>
        rcases hga : get_all now s1 with ⟨ents, s2, ops2⟩
        cases hfi : ents.findIdx? (fun c => c.id = entityId) with
        | none => simp [update, hg, hmk, hga, hfi] at herr
        | some i => simp [update, hg, hmk, hga, hfi] at herr

/-- Counterexample to C8 as stated: `update` of an existing entity with an
invalid amount raises the validation error only after `get_by_id` has
already issued a remote `read_range`. -/
theorem update_validation_after_read_counterexample :
    (update "b" negativeAmountUpdate 10 (freshState demoSheet)).1 =
      Except.error () ∧
    RemoteOp.readRange ∈ (update "b" negativeAmountUpdate 10
      (freshState demoSheet)).2.2 := by
  have hgfc : getFromCache (cacheKey "b") 10 (freshState demoSheet) =
      (none, freshState demoSheet) := by
    simp [getFromCache, freshState]
  have hga : get_all 10 (freshState demoSheet) =
      (parseSheet demoSheet 10,
       { freshState demoSheet with
         listCache := some ⟨parseSheet demoSheet 10, 10 + cacheTTL⟩ },
       [RemoteOp.readRange]) := by
    simp [get_all, freshState]
  have hfindb : (parseSheet demoSheet 10).find? (fun c => c.id = "b") =
      some { demoContribution "b" 30000 .received with updated_at := 10 } := by
    rw [parseSheet_demo]
    simp +decide [List.find?_cons, demoContribution]
  have hmkfail : mkContribution
      (applyUpdates ({ demoContribution "b" 30000 .received with updated_at := 10 }
        : ContributionModel) negativeAmountUpdate) 10 = none := by
    norm_num +decide [applyUpdates, negativeAmountUpdate, demoContribution,
      mkContribution]
  simp [update, get_by_id, hgfc, hga, hfindb, hmkfail]

/-- Witness for C8's amended theorem: an invalid create payload producing no
remote traffic, and the invalid-update instance producing no write. -/
theorem validation_before_remote_write_witness :
    create_from_fields
      ⟨"x", "f1", "CA", "2024-25", -5, none, .pending, none, [], 0, 0⟩ 10
      (freshState demoSheet) = (Except.error (), freshState demoSheet, []) ∧
    (∀ op ∈ (update "b" negativeAmountUpdate 10 (freshState demoSheet)).2.2,
      op.isWrite = false) := by
  have hmkbad : mkContribution
      ⟨"x", "f1", "CA", "2024-25", -5, none, .pending, none, [], 0, 0⟩ 10 = none := by
    norm_num +decide [mkContribution]
  have herr : (update "b" negativeAmountUpdate 10 (freshState demoSheet)).1 =
      Except.error () := by
    have hgfc : getFromCache (cacheKey "b") 10 (freshState demoSheet) =
        (none, freshState demoSheet) := by
      simp [getFromCache, freshState]
    have hga : get_all 10 (freshState demoSheet) =
        (parseSheet demoSheet 10,
         { freshState demoSheet with
           listCache := some ⟨parseSheet demoSheet 10, 10 + cacheTTL⟩ },
         [RemoteOp.readRange]) := by
      simp [get_all, freshState]
    have hfindb : (parseSheet demoSheet 10).find? (fun c => c.id = "b") =
        some { demoContribution "b" 30000 .received with updated_at := 10 } := by
      rw [parseSheet_demo]
      simp +decide [List.find?_cons, demoContribution]
    have hmkfail : mkContribution
        (applyUpdates ({ demoContribution "b" 30000 .received with updated_at := 10 }
          : ContributionModel) negativeAmountUpdate) 10 = none := by
      norm_num +decide [applyUpdates, negativeAmountUpdate, demoContribution,
        mkContribution]
    simp [update, get_by_id, hgfc, hga, hfindb, hmkfail]
  exact ⟨validation_before_remote_write.1 _ 10 (freshState demoSheet) hmkbad,
         validation_before_remote_write.2 "b" negativeAmountUpdate 10
           (freshState demoSheet) herr⟩

/-- An encoded empty-string description decodes to absent: the `or ""` on
the write side and the falsy check on the read side collapse `some ""` to
`none`. -/
theorem row_to_model_emptyDesc (now : Nat) :
    row_to_model (padRow (model_to_row emptyDescEntity)) now =
      some { emptyDescEntity with description := none, updated_at := now } := by
  rw [padRow_model_to_row]
  norm_num +decide [emptyDescEntity, demoContribution, model_to_row, row_to_model,
    padRow, contributionHeaders, emptyCell, strField, descField, parseAmountCell,
    parseDateCell, parseStatusCell, parseMetadataCell, parseTimestampCell,
    Cell.truthy, statusOfString, statusValue, mkContribution, round2, roundHalfEven]

/-- Counterexample to C1 as stated: an entity created with an empty-string
description is returned by `get_by_id` with its description absent — a
difference beyond the regenerated `updated_at`. -/
theorem round_trip_empty_description_counterexample :
    ((get_by_id "d1" 100 ((create emptyDescEntity
        (freshState [headerRow])).2.1)).1.map ContributionModel.id) = some "d1" ∧
    ((get_by_id "d1" 100 ((create emptyDescEntity
        (freshState [headerRow])).2.1)).1.map ContributionModel.description) =
      some none ∧
    emptyDescEntity.description = some "" := by
  have hcr : (create emptyDescEntity (freshState [headerRow])).2.1 =
      { sheet := [headerRow, model_to_row emptyDescEntity], cache := [],
        listCache := none } := by
    simp [create, freshState, invalidateAll]
  have hp : parseSheet [headerRow, model_to_row emptyDescEntity] 100 =
      [{ emptyDescEntity with description := none, updated_at := 100 }] := by
    simp only [parseSheet, List.drop_succ_cons, List.drop_zero, List.filterMap_cons,
      List.filterMap_nil]
    rw [row_to_model_emptyDesc]
  rw [hcr]
  simp +decide [get_by_id, getFromCache, get_all, hp, emptyDescEntity,
    demoContribution]

/-- C1 (amended): for an entity in canonical form (fields as the validators
normalise them, description absent or non-empty), after `create` into a
table with a header row and no other row with the same id, `get_by_id`
returns the entity with only `updated_at` regenerated — at any first read
time, and again at any second read time, before or after the cached entries
expire. -/
theorem create_then_get_by_id_round_trip (e : ContributionModel) (s : RepoState)
    (hv : validNormalized e = true) (hd : s.sheet ≠ [])
    (hnodup : ∀ (now : Nat), ∀ c ∈ parseSheet s.sheet now, c.id ≠ e.id)
    (t1 t2 : Nat) :
    (get_by_id e.id t1 ((create e s).2.1)).1 = some { e with updated_at := t1 } ∧
    (∃ t : Nat,
      (get_by_id e.id t2 ((get_by_id e.id t1 ((create e s).2.1)).2.1)).1 =
        some { e with updated_at := t }) := by
  obtain ⟨h0, tl, hs0⟩ : ∃ h tl, s.sheet = h :: tl := by
    cases hs : s.sheet with
    | nil => exact absurd hs hd
    | cons a l => exact ⟨a, l, rfl⟩
  have hparse : ∀ now : Nat, parseSheet (s.sheet ++ [model_to_row e]) now =
      parseSheet s.sheet now ++ [{ e with updated_at := now }] := by
    intro now
    rw [hs0]
    simp only [parseSheet, List.cons_append, List.drop_succ_cons, List.drop_zero,
      List.filterMap_append, List.filterMap_cons, List.filterMap_nil,
      padRow_model_to_row, row_to_model_round e hv now]
  have hfind : ∀ now : Nat,
      (parseSheet s.sheet now ++ [{ e with updated_at := now }]).find?
        (fun c => c.id = e.id) = some { e with updated_at := now } := by
    intro now
    rw [find?_append_of_forall_not (fun a ha => by
      simp only [decide_eq_true_eq]
      exact hnodup now a ha)]
    simp [List.find?_cons]
  have hcr : (create e s).2.1 =
      RepoState.mk (s.sheet ++ [model_to_row e]) [] none := by
    simp [create, invalidateAll]
  have hga1 : get_all t1 (RepoState.mk (s.sheet ++ [model_to_row e]) [] none) =
      (parseSheet s.sheet t1 ++ [{ e with updated_at := t1 }],
       RepoState.mk (s.sheet ++ [model_to_row e]) []
         (some ⟨parseSheet s.sheet t1 ++ [{ e with updated_at := t1 }],
           t1 + cacheTTL⟩),
       [RemoteOp.readRange]) := by
    simp [get_all, hparse t1]
  have hgb1 : get_by_id e.id t1 ((create e s).2.1) =
      (some { e with updated_at := t1 },
       RepoState.mk (s.sheet ++ [model_to_row e])
         [(cacheKey e.id, ⟨{ e with updated_at := t1 }, t1 + cacheTTL⟩)]
         (some ⟨parseSheet s.sheet t1 ++ [{ e with updated_at := t1 }],
           t1 + cacheTTL⟩),
       [RemoteOp.readRange]) := by
    rw [hcr]
    simp only [get_by_id, getFromCache, List.find?_nil, hga1, hfind t1]
    simp [setCache]
  refine ⟨by rw [hgb1], ?_⟩
  rw [hgb1]
  by_cases hexp : t1 + cacheTTL < t2
  · refine ⟨t2, ?_⟩
    have hev : getFromCache (cacheKey e.id) t2
        (RepoState.mk (s.sheet ++ [model_to_row e])
          [(cacheKey e.id, ⟨{ e with updated_at := t1 }, t1 + cacheTTL⟩)]
          (some ⟨parseSheet s.sheet t1 ++ [{ e with updated_at := t1 }],
            t1 + cacheTTL⟩)) =
        (none,
         RepoState.mk (s.sheet ++ [model_to_row e]) []
           (some ⟨parseSheet s.sheet t1 ++ [{ e with updated_at := t1 }],
             t1 + cacheTTL⟩)) := by
      simp [getFromCache, List.find?_cons, CacheEntry.isExpired, hexp,
        List.eraseP_cons]
    have hga2 : get_all t2
        (RepoState.mk (s.sheet ++ [model_to_row e]) []
          (some ⟨parseSheet s.sheet t1 ++ [{ e with updated_at := t1 }],
            t1 + cacheTTL⟩)) =
        (parseSheet s.sheet t2 ++ [{ e with updated_at := t2 }],
         RepoState.mk (s.sheet ++ [model_to_row e]) []
           (some ⟨parseSheet s.sheet t2 ++ [{ e with updated_at := t2 }],
             t2 + cacheTTL⟩),
         [RemoteOp.readRange]) := by
      simp [get_all, CacheEntry.isExpired, hexp, hparse t2]
    simp only [get_by_id, hev, hga2, hfind t2]
  · refine ⟨t1, ?_⟩
    have hhit : getFromCache (cacheKey e.id) t2
        (RepoState.mk (s.sheet ++ [model_to_row e])
          [(cacheKey e.id, ⟨{ e with updated_at := t1 }, t1 + cacheTTL⟩)]
          (some ⟨parseSheet s.sheet t1 ++ [{ e with updated_at := t1 }],
            t1 + cacheTTL⟩)) =
        (some { e with updated_at := t1 },
         RepoState.mk (s.sheet ++ [model_to_row e])
           [(cacheKey e.id, ⟨{ e with updated_at := t1 }, t1 + cacheTTL⟩)]
           (some ⟨parseSheet s.sheet t1 ++ [{ e with updated_at := t1 }],
             t1 + cacheTTL⟩)) := by
      simp [getFromCache, List.find?_cons, CacheEntry.isExpired, hexp]
    simp only [get_by_id, hhit]

/-- Witness for C1's amended theorem: a concrete entity read back right
after creation and then again well past the TTL. -/
theorem create_then_get_by_id_round_trip_witness :
    ((get_by_id (demoContribution "w1" 7500 ContributionStatus.received).id 50
      ((create (demoContribution "w1" 7500 ContributionStatus.received)
        (freshState [headerRow])).2.1)).1 =
      some { demoContribution "w1" 7500 ContributionStatus.received with
        updated_at := 50 }) ∧
    (∃ t : Nat,
      (get_by_id (demoContribution "w1" 7500 ContributionStatus.received).id 1000
        ((get_by_id (demoContribution "w1" 7500 ContributionStatus.received).id 50
          ((create (demoContribution "w1" 7500 ContributionStatus.received)
            (freshState [headerRow])).2.1)).2.1)).1 =
        some { demoContribution "w1" 7500 ContributionStatus.received with
          updated_at := t }) :=
  create_then_get_by_id_round_trip
    (demoContribution "w1" 7500 ContributionStatus.received)
    (freshState [headerRow])
    (validNormalized_demo "w1" 7500 ContributionStatus.received (by norm_num)
      (by norm_num [round2, roundHalfEven]))
    (by simp [freshState])
    (fun now c hc => by simp [parseSheet, freshState] at hc)
    50 1000
